import Mathlib

/-!
Verification development for the park-app license-plate recognition service.

The repository contains three near-duplicate Flask servers; the pure core in
each is a plate-text parser plus an OCR-result normalizer:

* `src/api/ocr.py`          — `parse_japanese_license_plate`, `extract_text_from_paddle_result`
* `src/backend/app.py`      — `parse_japanese_license_plate`, `extract_text_from_paddle_result`
* `src/backend/simple_app.py` — `parse_simple_plate`

This file gives a shallow embedding of those functions over `List Char`
(Python strings are sequences of code points, so `List Char` is exact) and
proves the specification claims about them.  Python's `re.search` with the
concrete patterns used by the source is embedded as hand-rolled backtracking
matchers that reproduce the leftmost-start, greedy-with-backtracking
semantics of each concrete pattern.  Floating-point OCR confidences are
modelled as rationals (the code only compares them, and real OCR confidences
are ordinary values in [0,1], so ordered-field comparison is faithful).
-/

namespace ParkApp

/-- Python's whitespace class (used by `\s`, `str.split()` and `str.strip()`):
ASCII whitespace, the C1 separators, and the Unicode space characters. -/
def pyIsSpace (c : Char) : Bool :=
  c == ' ' || c == '\t' || c == '\n' || c == '\r' || c == '\x0b' || c == '\x0c' ||
  c == '\x1c' || c == '\x1d' || c == '\x1e' || c == '\x1f' ||
  c == '\u0085' || c == ' ' || c == ' ' ||
  (decide (' ' ≤ c) && decide (c ≤ ' ')) ||
  c == ' ' || c == ' ' || c == ' ' || c == ' ' || c == '　'

/-- Python's `\d` restricted to the scripts that can occur in this domain:
ASCII digits and fullwidth digits (both are Unicode `Nd`). -/
def pyDigit (c : Char) : Bool :=
  (decide ('0' ≤ c) && decide (c ≤ '9')) || (decide ('０' ≤ c) && decide (c ≤ '９'))

/-- The character class `[^\d\s]` used for the region capture group. -/
def regionChar (c : Char) : Bool := !(pyDigit c) && !(pyIsSpace c)

/-- The character class `[あ-ん]` (U+3042 through U+3093). -/
def isHiraRange (c : Char) : Bool := decide ('あ' ≤ c) && decide (c ≤ 'ん')

/-- `text.replace('\n', ' ').replace('\r', ' ')`. -/
def replaceNL (l : List Char) : List Char :=
  l.map fun c => if c == '\n' || c == '\r' then ' ' else c

/-- Helper for `str.split()`: accumulates the current word (reversed). -/
def splitAux : List Char → List Char → List (List Char)
  | [], acc => if acc.isEmpty then [] else [acc.reverse]
  | c :: cs, acc =>
    if pyIsSpace c then
      if acc.isEmpty then splitAux cs [] else acc.reverse :: splitAux cs []
    else splitAux cs (c :: acc)

/-- Python `str.split()` with no arguments: split on whitespace runs,
dropping empty pieces. -/
def pySplit (l : List Char) : List (List Char) := splitAux l []

/-- `' '.join(words)`. -/
def joinSpace : List (List Char) → List Char
  | [] => []
  | [w] => w
  | w :: ws => w ++ ' ' :: joinSpace ws

/-- Helper for `re.sub(r'\s+', ' ', s)`: the `Bool` records whether we are
inside a whitespace run that has already emitted its single space. -/
def collapseAux : Bool → List Char → List Char
  | _, [] => []
  | inRun, c :: cs =>
    if pyIsSpace c then
      if inRun then collapseAux true cs else ' ' :: collapseAux true cs
    else c :: collapseAux false cs

/-- Python `str.strip()` (whitespace on both ends). -/
def pyStrip (l : List Char) : List Char :=
  ((l.dropWhile pyIsSpace).reverse.dropWhile pyIsSpace).reverse

/-- `ocr.py` text cleanup: replace `\n`/`\r` with spaces, then
`' '.join(clean_text.split())`. -/
def pyCleanSplit (l : List Char) : List Char := joinSpace (pySplit (replaceNL l))

/-- `app.py` / `simple_app.py` text cleanup: replace `\n`/`\r` with spaces,
then `re.sub(r'\s+', ' ', clean_text).strip()`. -/
def pyCleanSub (l : List Char) : List Char := pyStrip (collapseAux false (replaceNL l))

/-- Match exactly `n` characters of class `p` at the head of the input,
returning the matched characters and the remainder. -/
def splitClass (p : Char → Bool) : Nat → List Char → Option (List Char × List Char)
  | 0, l => some ([], l)
  | _ + 1, [] => none
  | n + 1, c :: cs =>
    if p c then
      match splitClass p n cs with
      | some (d, r) => some (c :: d, r)
      | none => none
    else none

/-- `\s*` followed by a class with no overlap with whitespace: maximal munch. -/
def skipSpaces (l : List Char) : List Char := l.dropWhile pyIsSpace

/-- Match a separator from `seps` followed by `\d{2}`; returns the three
matched characters. -/
def sepTail (seps : List Char) (l : List Char) : Option (List Char) :=
  match l with
  | s :: r =>
    if seps.contains s then
      match splitClass pyDigit 2 r with
      | some (d, _) => some (s :: d)
      | none => none
    else none
  | [] => none

/-- Anchored match of `\d{1,2}[sep]\d{2}` with Python's greedy backtracking:
two leading digits are tried before one. -/
def serialSepM (seps : List Char) (l : List Char) : Option (List Char) :=
  match splitClass pyDigit 2 l with
  | some (d2, r) =>
    match sepTail seps r with
    | some t => some (d2 ++ t)
    | none =>
      match splitClass pyDigit 1 l with
      | some (d1, r1) =>
        match sepTail seps r1 with
        | some t => some (d1 ++ t)
        | none => none
      | none => none
  | none =>
    match splitClass pyDigit 1 l with
    | some (d1, r1) =>
      match sepTail seps r1 with
      | some t => some (d1 ++ t)
      | none => none
    | none => none

/-- Anchored match of `\d{4}`. -/
def serial4M (l : List Char) : Option (List Char) :=
  match splitClass pyDigit 4 l with
  | some (d, _) => some d
  | none => none

/-- Anchored match of `\d{3}`. -/
def serial3M (l : List Char) : Option (List Char) :=
  match splitClass pyDigit 3 l with
  | some (d, _) => some d
  | none => none

/-- The optional-separator tail `[sep]?\d{2}` (greedy: with the separator
first, then without), used by `simple_app.py`'s number pattern. -/
def optTail (seps : List Char) (l : List Char) : Option (List Char) :=
  match sepTail seps l with
  | some t => some t
  | none =>
    match splitClass pyDigit 2 l with
    | some (d, _) => some d
    | none => none

/-- Anchored match of `\d{1,2}[sep]?\d{2}` with Python's backtracking order. -/
def serialOptM (seps : List Char) (l : List Char) : Option (List Char) :=
  match splitClass pyDigit 2 l with
  | some (d2, r) =>
    match optTail seps r with
    | some t => some (d2 ++ t)
    | none =>
      match splitClass pyDigit 1 l with
      | some (d1, r1) =>
        match optTail seps r1 with
        | some t => some (d1 ++ t)
        | none => none
      | none => none
  | none =>
    match splitClass pyDigit 1 l with
    | some (d1, r1) =>
      match optTail seps r1 with
      | some t => some (d1 ++ t)
      | none => none
    | none => none

/-- Anchored match of `\s*(\d{3})\s*([あ-ん])\s*(serial)` — the tail shared by
the Tier 1 and Tier 2 full-plate patterns (the classes on either side of each
`\s*` are disjoint from whitespace, so maximal munch is exact). -/
def matchTailFull (serialM : List Char → Option (List Char)) (l : List Char) :
    Option (List Char × Char × List Char) :=
  match splitClass pyDigit 3 (skipSpaces l) with
  | some (cls, r1) =>
    match skipSpaces r1 with
    | h :: r2 =>
      if isHiraRange h then
        match serialM (skipSpaces r2) with
        | some ser => some (cls, h, ser)
        | none => none
      else none
    | [] => none
  | none => none

/-- Greedy backtracking over the region length for `[^\d\s]{1,maxR}`:
the longest region prefix is tried first, exactly as Python's engine does. -/
def tryRegionLens (serialM : List Char → Option (List Char)) (l : List Char) :
    Nat → Option (List Char × List Char × List Char × List Char)
  | 0 => none
  | k + 1 =>
    match splitClass regionChar (k + 1) l with
    | some (reg, rest) =>
      match matchTailFull serialM rest with
      | some (cls, h, ser) => some (reg, cls, [h], ser)
      | none => tryRegionLens serialM l k
    | none => tryRegionLens serialM l k

/-- Anchored match of the full-plate pattern
`([^\d\s]{1,maxR})\s*(\d{3})\s*([あ-ん])\s*(serial)`;
result is (region, classification, hiragana, serial). -/
def matchFullAt (maxR : Nat) (serialM : List Char → Option (List Char))
    (l : List Char) : Option (List Char × List Char × List Char × List Char) :=
  tryRegionLens serialM l maxR

/-- `re.search`: try the anchored matcher at every start position, leftmost
start wins (the final position, the empty suffix, is also tried). -/
def searchAt {α : Type} (m : List Char → Option α) : List Char → Option α
  | [] => m []
  | c :: cs =>
    match m (c :: cs) with
    | some x => some x
    | none => searchAt m cs

/-- Does `l` start with `needle`? -/
def startsWithChars : List Char → List Char → Bool
  | [], _ => true
  | _ :: _, [] => false
  | a :: as, b :: bs => a == b && startsWithChars as bs

/-- Python's substring test `needle in hay` (unanchored containment). -/
def containsSub (needle : List Char) : List Char → Bool
  | [] => startsWithChars needle []
  | c :: cs => startsWithChars needle (c :: cs) || containsSub needle cs

/-- The separator class `[-−]` of `ocr.py`'s patterns (hyphen and U+2212
minus; the U+30FC long dash is NOT in this variant's class). -/
def ocrSeps : List Char := ['-', '−']

/-- The separator class `[-−ー]` of `app.py` / `simple_app.py` (hyphen,
U+2212 minus, U+30FC long dash). -/
def appSeps : List Char := ['-', '−', 'ー']

/-- `ocr.py`'s explicit `hiragana_list` string: the 46 unvoiced kana used to
build its Tier 3 character class (note: this is not the `[あ-ん]` range —
voiced and small kana are absent). -/
def ocrHiraChars : List Char :=
  "あいうえおかきくけこさしすせそたちつてとなにぬねのはひふへほまみむめもやゆよらりるれろわをん".toList

/-- `ocr.py`'s `regions` list, in source order. -/
def ocrRegions : List (List Char) :=
  (["品川", "新宿", "練馬", "世田谷", "杉並", "江東", "足立", "葛飾", "江戸川",
    "板橋", "台東", "墨田", "荒川", "北", "豊島", "中野", "目黒", "大田", "港",
    "千代田", "中央", "文京", "渋谷", "横浜", "川崎", "相模", "湘南", "名古屋",
    "大阪", "神戸", "京都", "福岡", "札幌", "仙台", "広島"]).map String.toList

/-- `app.py`'s `regions` list, in source order. -/
def appRegions : List (List Char) :=
  (["品川", "練馬", "足立", "杉並", "世田谷", "江東", "葛飾", "江戸川", "板橋",
    "台東", "墨田", "荒川", "北", "豊島", "中野", "目黒", "大田", "港",
    "千代田", "中央", "文京", "新宿", "渋谷",
    "横浜", "川崎", "相模", "湘南", "千葉", "習志野", "袖ケ浦", "野田",
    "水戸", "土浦", "つくば", "宇都宮", "とちぎ", "那須", "前橋", "高崎",
    "大阪", "なにわ", "和泉", "堺", "神戸", "姫路", "京都", "奈良", "滋賀",
    "名古屋", "尾張小牧", "一宮", "春日井", "豊田", "岡崎", "豊橋", "静岡", "浜松",
    "金沢", "富山", "福井", "長野", "松本", "諏訪", "山梨", "甲府",
    "札幌", "函館", "旭川", "釧路", "帯広", "仙台", "宮城", "福島", "郡山", "いわき",
    "新潟", "長岡", "福岡", "北九州", "筑豊", "久留米", "佐賀", "長崎", "熊本",
    "大分", "宮崎", "鹿児島", "沖縄", "広島", "福山", "岡山", "倉敷", "山口",
    "下関", "鳥取", "島根", "松江", "徳島", "香川", "高知", "愛媛", "松山"]).map
    String.toList

/-- `simple_app.py`'s `regions` list, in source order. -/
def simpleRegions : List (List Char) :=
  (["品川", "練馬", "横浜", "名古屋", "大阪", "京都", "神戸", "福岡"]).map String.toList

/-- The structured output dictionary: five string fields, always present. -/
structure PlateRecord where
  region : List Char
  classification : List Char
  hiragana : List Char
  number : List Char
  full_text : List Char
deriving DecidableEq, Repr

/-- Lift `re.search` single-character hits to a field value. -/
def optChar : Option Char → List Char
  | some c => [c]
  | none => []

/-- `ocr.py` Tier 3 number assignment: the body of the
`for pattern in number_patterns` loop once a pattern has matched `num`
(`if len(num) == 4 and '-' not in num` / `elif len(num) == 3` / `else`).
Result is (number, classification). -/
def ocrNumAssign (num : List Char) : List Char × List Char :=
  if num.length == 4 && !(num.contains '-') then
    (num.take 2 ++ '-' :: num.drop 2, [])
  else if num.length == 3 then ([], num)
  else (num, [])

/-- `ocr.py` Tier 3 numeric search: the three sub-patterns tried in order,
first match anywhere in the text wins, then `ocrNumAssign`. -/
def ocrTier3Num (clean : List Char) : List Char × List Char :=
  match searchAt (serialSepM ocrSeps) clean with
  | some num => ocrNumAssign num
  | none =>
    match searchAt serial4M clean with
    | some num => ocrNumAssign num
    | none =>
      match searchAt serial3M clean with
      | some num => ocrNumAssign num
      | none => ([], [])

/-- `app.py` Tier 3 numeric search: indexed loop —
pattern 0 assigns `number` verbatim, pattern 1 (only when the match is
4 characters) assigns the synthesized `number`, pattern 2 (only when the
match is 3 characters) assigns `classification`. Result is
(number, classification). -/
def appTier3Num (clean : List Char) : List Char × List Char :=
  match searchAt (serialSepM appSeps) clean with
  | some num => (num, [])
  | none =>
    match searchAt serial4M clean with
    | some num => (if num.length == 4 then num.take 2 ++ '-' :: num.drop 2 else [], [])
    | none =>
      match searchAt serial3M clean with
      | some num => ([], if num.length == 3 then num else [])
      | none => ([], [])

/-- The four plate fields computed by `ocr.py`'s
`parse_japanese_license_plate` from the cleaned text, as
(region, classification, hiragana, number).  Tier 1 region is `{1,4}` and the
separators are `[-−]`; Tier 3's hiragana class is the explicit
`hiragana_list`. -/
def ocrFields (clean : List Char) : List Char × List Char × List Char × List Char :=
  match searchAt (matchFullAt 4 (serialSepM ocrSeps)) clean with
  | some (r, c, h, n) => (r, c, h, n)
  | none =>
    match searchAt (matchFullAt 4 serial4M) clean with
    | some (r, c, h, n) => (r, c, h, n.take 2 ++ '-' :: n.drop 2)
    | none =>
      ((ocrRegions.find? fun rg => containsSub rg clean).getD [],
       (ocrTier3Num clean).2,
       optChar (clean.find? fun c => ocrHiraChars.contains c),
       (ocrTier3Num clean).1)

/-- `ocr.py`'s `parse_japanese_license_plate`. -/
def ocrParse (text : List Char) : PlateRecord :=
  let clean := pyCleanSplit text
  ⟨(ocrFields clean).1, (ocrFields clean).2.1, (ocrFields clean).2.2.1,
   (ocrFields clean).2.2.2, clean⟩

/-- The four plate fields computed by `app.py`'s
`parse_japanese_license_plate`, as (region, classification, hiragana,
number).  Tier 1 region is `{1,5}` and the separators are `[-−ー]`; Tier 3's
hiragana class is the range `[あ-ん]`. -/
def appFields (clean : List Char) : List Char × List Char × List Char × List Char :=
  match searchAt (matchFullAt 5 (serialSepM appSeps)) clean with
  | some (r, c, h, n) => (r, c, h, n)
  | none =>
    match searchAt (matchFullAt 5 serial4M) clean with
    | some (r, c, h, n) => (r, c, h, n.take 2 ++ '-' :: n.drop 2)
    | none =>
      ((appRegions.find? fun rg => containsSub rg clean).getD [],
       (appTier3Num clean).2,
       optChar (clean.find? isHiraRange),
       (appTier3Num clean).1)

/-- `app.py`'s `parse_japanese_license_plate`. -/
def appParse (text : List Char) : PlateRecord :=
  let clean := pyCleanSub text
  ⟨(appFields clean).1, (appFields clean).2.1, (appFields clean).2.2.1,
   (appFields clean).2.2.2, clean⟩

/-- The four plate fields computed by `simple_app.py`'s `parse_simple_plate`:
no tiers — region containment, the optional-separator number pattern
`(\d{1,2}[-−ー]?\d{2})`, the hiragana range, and the 3-digit classification
pattern are each searched independently. -/
def simpleFields (clean : List Char) : List Char × List Char × List Char × List Char :=
  ((simpleRegions.find? fun rg => containsSub rg clean).getD [],
   (searchAt serial3M clean).getD [],
   optChar (clean.find? isHiraRange),
   (searchAt (serialOptM appSeps) clean).getD [])

/-- `simple_app.py`'s `parse_simple_plate`. -/
def simpleParse (text : List Char) : PlateRecord :=
  let clean := pyCleanSub text
  ⟨(simpleFields clean).1, (simpleFields clean).2.1, (simpleFields clean).2.2.1,
   (simpleFields clean).2.2.2, clean⟩

/-- Lexicographic comparison of code-point sequences: Python's `str < str`. -/
def lexLtB : List Char → List Char → Bool
  | [], [] => false
  | [], _ :: _ => true
  | _ :: _, [] => false
  | a :: as, b :: bs =>
    if a < b then true else if b < a then false else lexLtB as bs

/-- Strict descending comparison on (confidence, text) pairs — Python tuple
comparison `(c1, t1) > (c2, t2)`. -/
def pairGtB (a b : ℚ × List Char) : Bool :=
  decide (b.1 < a.1) || (decide (a.1 = b.1) && lexLtB b.2 a.2)

/-- Stable insertion for descending order: the inserted element came earlier
in the input than everything in the accumulator, so it goes after every
strictly greater element and before equal ones. -/
def insertDesc (x : ℚ × List Char) : List (ℚ × List Char) → List (ℚ × List Char)
  | [] => [x]
  | y :: ys => if pairGtB y x then y :: insertDesc x ys else x :: y :: ys

/-- Python `sorted(pairs, reverse=True)` for (confidence, text) pairs. -/
def sortDesc (l : List (ℚ × List Char)) : List (ℚ × List Char) :=
  l.foldr insertDesc []

/-- `ocr.py`'s `extract_text_from_paddle_result`: keep lines with
confidence strictly above 0.5, in their original order, and join with
single spaces.  (The raw engine lines are modelled as (text, confidence)
pairs; the `len(line) >= 2` guard over PaddleOCR's `[bbox, (text, conf)]`
wrapping is part of the engine boundary, not the data model.) -/
def ocrExtract (lines : List (List Char × ℚ)) : List Char :=
  joinSpace ((lines.filter fun p => decide ((1 : ℚ)/2 < p.2)).map Prod.fst)

/-- `app.py`'s `extract_text_from_paddle_result`: keep lines with confidence
strictly above 0.3 (appending to parallel `texts` / `confidences` lists),
sort `zip(confidences, texts)` in reverse, and join the texts with single
spaces. -/
def appExtract (lines : List (List Char × ℚ)) : List Char :=
  let kept := lines.filter fun p => decide ((3 : ℚ)/10 < p.2)
  let texts := kept.map Prod.fst
  let confidences := kept.map Prod.snd
  joinSpace ((sortDesc (confidences.zip texts)).map Prod.snd)

/-- Modelled from the spec's words for the normalizer contract (C5): discard
lines with confidence at or below the threshold, order survivors by
confidence descending (ties broken by text, descending), join with single
spaces. -/
def specNormalize (thr : ℚ) (lines : List (List Char × ℚ)) : List Char :=
  joinSpace
    ((sortDesc ((lines.filter fun p => decide (thr < p.2)).map fun p => (p.2, p.1))).map
      Prod.snd)

/-- Shape `DD-DD`: two digits, an ASCII hyphen, two digits — the literal
number format asserted by C9. -/
def isDDdashDD (l : List Char) : Bool :=
  match l with
  | [a, b, c, d, e] => pyDigit a && pyDigit b && c == '-' && pyDigit d && pyDigit e
  | _ => false

/-- Serial shape `\d{1,2}<sep>\d{2}` with a mandatory separator drawn from
`seps`. -/
def serialShapeB (seps : List Char) : List Char → Bool
  | [a, s, c, d] => pyDigit a && seps.contains s && pyDigit c && pyDigit d
  | [a, b, s, c, d] => pyDigit a && pyDigit b && seps.contains s && pyDigit c && pyDigit d
  | _ => false

/-- Classification field invariant: empty or exactly three digits. -/
def classShapeB (l : List Char) : Bool := l.isEmpty || (l.length == 3 && l.all pyDigit)

/-- `app.py` number field invariant: empty, or 1–2 digits + separator +
2 digits (the synthesized `DD-DD` is the special case with separator `-`). -/
def numShapeAppB (l : List Char) : Bool := l.isEmpty || serialShapeB appSeps l

example : containsSub "横浜".toList "ノイズ横浜ノイズ".toList = true := by decide
example : serialSepM ['-'] "1-23".toList = some "1-23".toList := by decide
example : serialSepM ['-'] "123-45".toList = none := by decide
example : searchAt (serialSepM ['-']) "123-45".toList = some "23-45".toList := by decide
example : serialOptM ['-'] "580".toList = some "580".toList := by decide
example : pyCleanSplit "  a \n b  ".toList = "a b".toList := by decide
example : pyCleanSub "  a \n b  ".toList = "a b".toList := by decide
example :
    appParse "品川 500 あ 12-34".toList =
      ⟨"品川".toList, "500".toList, "あ".toList, "12-34".toList,
       "品川 500 あ 12-34".toList⟩ := by decide
example :
    simpleParse "580".toList =
      ⟨[], "580".toList, [], "580".toList, "580".toList⟩ := by decide
example :
    ocrParse "品川 500 あ 1234".toList =
      ⟨"品川".toList, "500".toList, "あ".toList, "12-34".toList,
       "品川 500 あ 1234".toList⟩ := by decide

/-- Claim C1: for every input text the three parsers return a total
five-field record (the `PlateRecord` type itself), whose `full_text` is
exactly the variant's whitespace-normalized input; unmatched fields are the
empty string, as witnessed by the all-empty records on empty input.  The
embedding is total by construction, matching the code, which raises no
exceptions. -/
theorem claim1_record_totality :
    (∀ t : List Char,
      (ocrParse t).full_text = pyCleanSplit t ∧
      (appParse t).full_text = pyCleanSub t ∧
      (simpleParse t).full_text = pyCleanSub t) ∧
    ocrParse [] = ⟨[], [], [], [], []⟩ ∧
    appParse [] = ⟨[], [], [], [], []⟩ ∧
    simpleParse [] = ⟨[], [], [], [], []⟩ :=
  ⟨fun _ => ⟨rfl, rfl, rfl⟩, by decide, by decide, by decide⟩

/-- Claim C2 counterexample: `ocr.py`'s Tier 1 separator class is `[-−]` —
it does not contain the long dash `ー`, so `"品川 500 あ 12ー34"` is not a
Tier 1 match there: it falls through to Tier 3, which leaves `number` empty
(and puts `"500"` in `classification`), refuting the claim that `number` is
set to the matched serial `"12ー34"`. -/
theorem claim2_counterexample :
    ocrParse "品川 500 あ 12ー34".toList =
      ⟨"品川".toList, "500".toList, "あ".toList, [], "品川 500 あ 12ー34".toList⟩ ∧
    ([] : List Char) ≠ "12ー34".toList := by
  exact ⟨by decide, by decide⟩

/-- Claim C2 amended: in the `app.py` parser the Tier 1 serial class is
`[-−ー]`, and all three separator variants match with the separator
preserved verbatim in `number`; `ocr.py` accepts only `'-'` and `'−'`
(shown here on the two separators it does accept). -/
theorem claim2_amended :
    appParse "品川 500 あ 12-34".toList =
      ⟨"品川".toList, "500".toList, "あ".toList, "12-34".toList,
       "品川 500 あ 12-34".toList⟩ ∧
    appParse "品川 500 あ 12−34".toList =
      ⟨"品川".toList, "500".toList, "あ".toList, "12−34".toList,
       "品川 500 あ 12−34".toList⟩ ∧
    appParse "品川 500 あ 12ー34".toList =
      ⟨"品川".toList, "500".toList, "あ".toList, "12ー34".toList,
       "品川 500 あ 12ー34".toList⟩ ∧
    ocrParse "品川 500 あ 12-34".toList =
      ⟨"品川".toList, "500".toList, "あ".toList, "12-34".toList,
       "品川 500 あ 12-34".toList⟩ ∧
    ocrParse "品川 500 あ 12−34".toList =
      ⟨"品川".toList, "500".toList, "あ".toList, "12−34".toList,
       "品川 500 あ 12−34".toList⟩ := by
  refine ⟨by decide, by decide, by decide, by decide, by decide⟩

/-- Claim C3: whenever `app.py`'s Tier 1 pattern matches the cleaned text,
the returned record is built from exactly the Tier 1 captured groups (and
the cleaned text); Tiers 2 and 3 are never consulted. -/
theorem claim3_tier1_precedence (t r c h n : List Char)
    (hm : searchAt (matchFullAt 5 (serialSepM appSeps)) (pyCleanSub t) =
      some (r, c, h, n)) :
    appParse t = ⟨r, c, h, n, pyCleanSub t⟩ := by
  simp only [appParse, appFields, hm]

/-- Claim C3 witness: `"ノ品川 500 あ 12-34"` is a Tier 1 match whose greedy
region capture is `"ノ品川"`, while the Tier 3 catalog scan on the same text
would have yielded `"品川"` — the result nevertheless comes from Tier 1. -/
theorem claim3_witness :
    searchAt (matchFullAt 5 (serialSepM appSeps))
        (pyCleanSub "ノ品川 500 あ 12-34".toList) =
      some ("ノ品川".toList, "500".toList, "あ".toList, "12-34".toList) ∧
    appParse "ノ品川 500 あ 12-34".toList =
      ⟨"ノ品川".toList, "500".toList, "あ".toList, "12-34".toList,
       "ノ品川 500 あ 12-34".toList⟩ ∧
    (appRegions.find? fun rg =>
        containsSub rg (pyCleanSub "ノ品川 500 あ 12-34".toList)).getD [] =
      "品川".toList := by
  have hm : searchAt (matchFullAt 5 (serialSepM appSeps))
      (pyCleanSub "ノ品川 500 あ 12-34".toList) =
      some ("ノ品川".toList, "500".toList, "あ".toList, "12-34".toList) := by decide
  exact ⟨hm, (claim3_tier1_precedence _ _ _ _ _ hm).trans (by decide), by decide⟩

/-- Claim C4: in both tiered parsers, when Tier 1 fails and Tier 2 matches,
`number` is synthesized as the first two captured digits, `'-'`, and the
last two. -/
theorem claim4_tier2_synthesis (t r c h n : List Char) :
    (searchAt (matchFullAt 5 (serialSepM appSeps)) (pyCleanSub t) = none →
      searchAt (matchFullAt 5 serial4M) (pyCleanSub t) = some (r, c, h, n) →
      appParse t = ⟨r, c, h, n.take 2 ++ '-' :: n.drop 2, pyCleanSub t⟩) ∧
    (searchAt (matchFullAt 4 (serialSepM ocrSeps)) (pyCleanSplit t) = none →
      searchAt (matchFullAt 4 serial4M) (pyCleanSplit t) = some (r, c, h, n) →
      ocrParse t = ⟨r, c, h, n.take 2 ++ '-' :: n.drop 2, pyCleanSplit t⟩) := by
  constructor
  · intro h1 h2
    simp only [appParse, appFields, h1, h2]
  · intro h1 h2
    simp only [ocrParse, ocrFields, h1, h2]

/-- Claim C4 witness: `"品川 500 あ 1234"` has no Tier 1 match, Tier 2
captures the four digits, and both parsers return `number = "12-34"`. -/
theorem claim4_witness :
    (searchAt (matchFullAt 5 (serialSepM appSeps))
        (pyCleanSub "品川 500 あ 1234".toList) = none ∧
      searchAt (matchFullAt 5 serial4M) (pyCleanSub "品川 500 あ 1234".toList) =
        some ("品川".toList, "500".toList, "あ".toList, "1234".toList) ∧
      appParse "品川 500 あ 1234".toList =
        ⟨"品川".toList, "500".toList, "あ".toList, "12-34".toList,
         "品川 500 あ 1234".toList⟩) ∧
    (searchAt (matchFullAt 4 (serialSepM ocrSeps))
        (pyCleanSplit "品川 500 あ 1234".toList) = none ∧
      searchAt (matchFullAt 4 serial4M) (pyCleanSplit "品川 500 あ 1234".toList) =
        some ("品川".toList, "500".toList, "あ".toList, "1234".toList) ∧
      ocrParse "品川 500 あ 1234".toList =
        ⟨"品川".toList, "500".toList, "あ".toList, "12-34".toList,
         "品川 500 あ 1234".toList⟩) := by
  have h1a : searchAt (matchFullAt 5 (serialSepM appSeps))
      (pyCleanSub "品川 500 あ 1234".toList) = none := by decide
  have h2a : searchAt (matchFullAt 5 serial4M) (pyCleanSub "品川 500 あ 1234".toList) =
      some ("品川".toList, "500".toList, "あ".toList, "1234".toList) := by decide
  have h1o : searchAt (matchFullAt 4 (serialSepM ocrSeps))
      (pyCleanSplit "品川 500 あ 1234".toList) = none := by decide
  have h2o : searchAt (matchFullAt 4 serial4M) (pyCleanSplit "品川 500 あ 1234".toList) =
      some ("品川".toList, "500".toList, "あ".toList, "1234".toList) := by decide
  refine ⟨⟨h1a, h2a, ?_⟩, ⟨h1o, h2o, ?_⟩⟩
  · exact ((claim4_tier2_synthesis _ _ _ _ _).1 h1a h2a).trans (by decide)
  · exact ((claim4_tier2_synthesis _ _ _ _ _).2 h1o h2o).trans (by decide)

/-- Claim C6 counterexample: `'が'` (U+304C) lies in the hiragana range
U+3042–U+3093, but `ocr.py`'s Tier 3 hiragana search uses the explicit
46-character unvoiced `hiragana_list`, which omits it — on input `"が"` the
claim demands `hiragana = "が"`, yet `ocr.py` leaves it empty. -/
theorem claim6_counterexample :
    isHiraRange 'が' = true ∧
    (ocrParse "が".toList).hiragana = [] ∧
    ([] : List Char) ≠ ['が'] := by
  exact ⟨by decide, by decide, by decide⟩

/-- Claim C6 amended: in the `app.py` parser (whose Tier 3 class is the
range `[あ-ん]`), when Tiers 1 and 2 fail, `hiragana` is the first character
of the cleaned text in the range U+3042–U+3093, and empty when none exists;
`ocr.py` instead matches against its explicit unvoiced-kana list. -/
theorem claim6_amended (t : List Char)
    (h1 : searchAt (matchFullAt 5 (serialSepM appSeps)) (pyCleanSub t) = none)
    (h2 : searchAt (matchFullAt 5 serial4M) (pyCleanSub t) = none) :
    (appParse t).hiragana = optChar ((pyCleanSub t).find? isHiraRange) := by
  simp only [appParse, appFields, h1, h2]

/-- Claim C6 witness: on `"が"` both tiers fail and the `app.py` parser
returns `hiragana = "が"`, the first in-range character. -/
theorem claim6_witness :
    searchAt (matchFullAt 5 (serialSepM appSeps)) (pyCleanSub "が".toList) = none ∧
    searchAt (matchFullAt 5 serial4M) (pyCleanSub "が".toList) = none ∧
    (appParse "が".toList).hiragana = ['が'] := by
  have h1 : searchAt (matchFullAt 5 (serialSepM appSeps)) (pyCleanSub "が".toList) =
      none := by decide
  have h2 : searchAt (matchFullAt 5 serial4M) (pyCleanSub "が".toList) = none := by
    decide
  exact ⟨h1, h2, (claim6_amended _ h1 h2).trans (by decide)⟩

/-- Claim C7 counterexample: `simple_app.py` has no tiered short-circuit —
its number search (`\d{1,2}[-−ー]?\d{2}`, separator optional) and its
3-digit classification search run independently, so on the sole digit run
`"580"` BOTH fire: `number = "580"` and `classification = "580"`, where the
claim requires `number = ""`. -/
theorem claim7_counterexample :
    simpleParse "580".toList =
      ⟨[], "580".toList, [], "580".toList, "580".toList⟩ ∧
    "580".toList ≠ ([] : List Char) := by
  exact ⟨by decide, by decide⟩

/-- Claim C7 amended: in the tiered parsers the three Tier 3 numeric
sub-patterns are tried in order and at most one fires, so (Tiers 1–2 having
failed) at least one of `number`, `classification` is left empty in
`app.py`'s result; `simple_app.py` runs its two numeric searches
independently and can set both. -/
theorem claim7_amended (t : List Char)
    (h1 : searchAt (matchFullAt 5 (serialSepM appSeps)) (pyCleanSub t) = none)
    (h2 : searchAt (matchFullAt 5 serial4M) (pyCleanSub t) = none) :
    (appParse t).number = [] ∨ (appParse t).classification = [] := by
  simp only [appParse, appFields, h1, h2]
  unfold appTier3Num
  cases hs1 : searchAt (serialSepM appSeps) (pyCleanSub t) with
  | some num => right; rfl
  | none =>
    cases hs2 : searchAt serial4M (pyCleanSub t) with
    | some num => right; rfl
    | none =>
      cases hs3 : searchAt serial3M (pyCleanSub t) with
      | some num => left; rfl
      | none => left; rfl

/-- Claim C7 witness: on input `"580"` (sole digit run, no hiragana or
region) the `app.py` parser yields `classification = "580"` and
`number = ""`. -/
theorem claim7_witness :
    searchAt (matchFullAt 5 (serialSepM appSeps)) (pyCleanSub "580".toList) = none ∧
    searchAt (matchFullAt 5 serial4M) (pyCleanSub "580".toList) = none ∧
    ((appParse "580".toList).number = [] ∨
      (appParse "580".toList).classification = []) ∧
    appParse "580".toList = ⟨[], "580".toList, [], [], "580".toList⟩ := by
  have h1 : searchAt (matchFullAt 5 (serialSepM appSeps)) (pyCleanSub "580".toList) =
      none := by decide
  have h2 : searchAt (matchFullAt 5 serial4M) (pyCleanSub "580".toList) = none := by
    decide
  exact ⟨h1, h2, claim7_amended _ h1 h2, by decide⟩

/-- Claim C8: when Tiers 1 and 2 fail, `app.py`'s Tier 3 region is the first
catalog entry (in listed order) contained anywhere in the cleaned text, and
empty when no entry is contained (`find?` returns `none`). -/
theorem claim8_tier3_region (t : List Char)
    (h1 : searchAt (matchFullAt 5 (serialSepM appSeps)) (pyCleanSub t) = none)
    (h2 : searchAt (matchFullAt 5 serial4M) (pyCleanSub t) = none) :
    (appParse t).region =
      (appRegions.find? fun rg => containsSub rg (pyCleanSub t)).getD [] := by
  simp only [appParse, appFields, h1, h2]

/-- Claim C8 witness: `"ノイズ 横浜 ノイズ あ 12-34"` fails Tiers 1–2 (no
3-digit run), the catalog scan resolves `region = "横浜"`, and the record
also has `hiragana = "あ"` and `number = "12-34"` from the other Tier 3
searches. -/
theorem claim8_witness :
    searchAt (matchFullAt 5 (serialSepM appSeps))
      (pyCleanSub "ノイズ 横浜 ノイズ あ 12-34".toList) = none ∧
    searchAt (matchFullAt 5 serial4M)
      (pyCleanSub "ノイズ 横浜 ノイズ あ 12-34".toList) = none ∧
    (appParse "ノイズ 横浜 ノイズ あ 12-34".toList).region = "横浜".toList ∧
    appParse "ノイズ 横浜 ノイズ あ 12-34".toList =
      ⟨"横浜".toList, [], "あ".toList, "12-34".toList,
       "ノイズ 横浜 ノイズ あ 12-34".toList⟩ := by
  have h1 : searchAt (matchFullAt 5 (serialSepM appSeps))
      (pyCleanSub "ノイズ 横浜 ノイズ あ 12-34".toList) = none := by decide
  have h2 : searchAt (matchFullAt 5 serial4M)
      (pyCleanSub "ノイズ 横浜 ノイズ あ 12-34".toList) = none := by decide
  exact ⟨h1, h2, (claim8_tier3_region _ h1 h2).trans (by decide), by decide⟩

/-- Claim C5 counterexample: `ocr.py`'s normalizer does NOT sort surviving
lines by confidence — it keeps original OCR order.  With lines
`[("a", 0.6), ("b", 0.9)]` and threshold 0.5 it returns `"a b"`, while the
claimed confidence-descending join is `"b a"`. -/
theorem claim5_counterexample :
    ocrExtract [("a".toList, 3/5), ("b".toList, 9/10)] = "a b".toList ∧
    specNormalize ((1 : ℚ)/2) [("a".toList, 3/5), ("b".toList, 9/10)] =
      "b a".toList ∧
    "a b".toList ≠ "b a".toList := by
  have ha : ((1 : ℚ)/2 < 3/5) := by norm_num
  have hb : ((1 : ℚ)/2 < 9/10) := by norm_num
  have hba : ((3 : ℚ)/5 < 9/10) := by norm_num
  refine ⟨?_, ?_, by decide⟩
  · simp only [ocrExtract, List.filter, ha, hb, decide_eq_true_eq, if_true,
      List.map]
    decide
  · have hgt : pairGtB ((9 : ℚ)/10, "b".toList) ((3 : ℚ)/5, "a".toList) = true := by
      simp [pairGtB, hba]
    simp only [specNormalize, List.filter, ha, hb, decide_eq_true_eq, if_true,
      List.map, sortDesc, List.foldr, insertDesc, hgt, if_true]
    decide

/-- Claim C5 amended: both normalizers discard every line whose confidence
is at or below their threshold and join survivors with single spaces (empty
result when none survive); the `app.py` variant (threshold 0.3) orders the
survivors by confidence descending with ties broken by text descending
(reverse tuple sort), while the `ocr.py` variant (threshold 0.5) keeps the
survivors in their original order without sorting. -/
theorem claim5_amended (lines : List (List Char × ℚ)) :
    appExtract lines = specNormalize ((3 : ℚ)/10) lines ∧
    ocrExtract lines =
      joinSpace ((lines.filter fun p => decide ((1 : ℚ)/2 < p.2)).map Prod.fst) := by
  constructor
  · simp only [appExtract, specNormalize]
    rw [List.zip_map']
  · rfl

/-- Claim C10: in `app.py`'s normalizer two surviving lines with equal
confidence are emitted in descending lexicographic order of their text (the
reverse tuple sort compares texts on confidence ties), not in original OCR
order. -/
theorem claim10_tie_order (t1 t2 : List Char) (c : ℚ)
    (hc : (3 : ℚ)/10 < c) (hlt : lexLtB t1 t2 = true) :
    appExtract [(t1, c), (t2, c)] = t2 ++ ' ' :: t1 := by
  have hcd : decide ((3 : ℚ)/10 < c) = true := decide_eq_true hc
  have hlt2 : lexLtB t2 t1 = false := by
    clear hc hcd
    induction t1 generalizing t2 with
    | nil => cases t2 <;> simp_all [lexLtB]
    | cons a as ih =>
      cases t2 with
      | nil => simp [lexLtB] at hlt
      | cons b bs =>
        simp only [lexLtB] at hlt ⊢
        by_cases hab : a < b
        · have : ¬ b < a := lt_asymm hab
          simp [hab, this]
        · by_cases hba : b < a
          · simp [hab, hba] at hlt
          · simp only [hab, hba, if_false] at hlt ⊢
            exact ih _ hlt
  have hgt : pairGtB (c, t2) (c, t1) = true := by
    simp [pairGtB, hlt]
  simp [appExtract, List.filter, hcd, sortDesc, insertDesc, hgt, joinSpace]

/-- Claim C10 witness: equal confidences 0.9 with texts `"あ" < "い"` give
the join `"い あ"` — text-descending, not input order. -/
theorem claim10_witness :
    (3 : ℚ)/10 < 9/10 ∧ lexLtB "あ".toList "い".toList = true ∧
    appExtract [("あ".toList, 9/10), ("い".toList, 9/10)] = "い あ".toList := by
  have hc : (3 : ℚ)/10 < 9/10 := by norm_num
  have hlt : lexLtB "あ".toList "い".toList = true := by decide
  exact ⟨hc, hlt, (claim10_tie_order _ _ _ hc hlt).trans (by decide)⟩

/-- Soundness of the exact-count class matcher: a successful match has the
requested length and every matched character is in the class. -/
theorem splitClass_sound (p : Char → Bool) :
    ∀ (n : Nat) (l d r : List Char), splitClass p n l = some (d, r) →
      d.length = n ∧ ∀ c ∈ d, p c = true := by
  intro n
  induction n with
  | zero =>
    intro l d r h
    simp only [splitClass, Option.some.injEq, Prod.mk.injEq] at h
    obtain ⟨h1, _⟩ := h
    subst h1
    simp
  | succ k ih =>
    intro l d r h
    cases l with
    | nil => simp [splitClass] at h
    | cons c cs =>
      by_cases hc : p c = true
      · simp only [splitClass, hc, if_true] at h
        cases hsc : splitClass p k cs with
        | none => rw [hsc] at h; simp at h
        | some pr =>
          obtain ⟨d1, r1⟩ := pr
          rw [hsc] at h
          simp only [Option.some.injEq, Prod.mk.injEq] at h
          obtain ⟨hd, _⟩ := h
          subst hd
          obtain ⟨hl, hall⟩ := ih cs d1 r1 hsc
          refine ⟨by simp [hl], ?_⟩
          intro x hx
          rcases List.mem_cons.mp hx with h1 | h2
          · subst h1; exact hc
          · exact hall x h2
      · simp [splitClass, hc] at h

/-- A list of length four is an explicit four-element list. -/
theorem listLengthFour {α : Type} (l : List α) (h : l.length = 4) :
    ∃ a b c d, l = [a, b, c, d] := by
  cases l with
  | nil => simp at h
  | cons a l1 =>
    cases l1 with
    | nil => simp at h
    | cons b l2 =>
      cases l2 with
      | nil => simp at h
      | cons c l3 =>
        cases l3 with
        | nil => simp at h
        | cons d l4 =>
          cases l4 with
          | nil => exact ⟨a, b, c, d, rfl⟩
          | cons e l5 => simp at h

/-- Soundness of the mandatory-separator tail: a successful match is a
separator followed by two digits. -/
theorem sepTail_sound (seps l t : List Char) (hm : sepTail seps l = some t) :
    ∃ s c d, t = [s, c, d] ∧ seps.contains s = true ∧
      pyDigit c = true ∧ pyDigit d = true := by
  cases l with
  | nil => simp [sepTail] at hm
  | cons s r =>
    by_cases hs : seps.contains s = true
    · simp only [sepTail, hs, if_true] at hm
      cases h2 : splitClass pyDigit 2 r with
      | none => rw [h2] at hm; simp at hm
      | some pr =>
        obtain ⟨dd, rest⟩ := pr
        rw [h2] at hm
        simp only [Option.some.injEq] at hm
        obtain ⟨hlen, hall⟩ := splitClass_sound pyDigit 2 r dd rest h2
        obtain ⟨c, d, rfl⟩ := List.length_eq_two.mp hlen
        exact ⟨s, c, d, hm.symm, hs, hall c (by simp), hall d (by simp)⟩
    · simp only [sepTail, hs, if_false] at hm
      exact absurd hm (by simp)

/-- Assembling 1–2 leading digits with a separator tail yields the serial
shape. -/
theorem sepPlusTail_shape (seps dd t x : List Char)
    (hdl : dd.length = 1 ∨ dd.length = 2)
    (hall : ∀ c ∈ dd, pyDigit c = true)
    (ht : ∃ s c d, t = [s, c, d] ∧ seps.contains s = true ∧
      pyDigit c = true ∧ pyDigit d = true)
    (hx : dd ++ t = x) : serialShapeB seps x = true := by
  obtain ⟨s, c, d, rfl, hs, hc, hd⟩ := ht
  subst hx
  have hs2 : s ∈ seps := List.mem_of_elem_eq_true hs
  rcases hdl with h1 | h2
  · obtain ⟨a, rfl⟩ := List.length_eq_one.mp h1
    simp [serialShapeB, hall a (by simp), hs, hs2, hc, hd]
  · obtain ⟨a, b, rfl⟩ := List.length_eq_two.mp h2
    simp [serialShapeB, hall a (by simp), hall b (by simp), hs, hs2, hc, hd]

/-- Soundness of the anchored serial matcher `\d{1,2}<sep>\d{2}`. -/
theorem serialSepM_sound (seps l x : List Char)
    (hm : serialSepM seps l = some x) : serialShapeB seps x = true := by
  unfold serialSepM at hm
  cases h2 : splitClass pyDigit 2 l with
  | some pr =>
    obtain ⟨d2, r⟩ := pr
    rw [h2] at hm
    simp only at hm
    cases h3 : sepTail seps r with
    | some t =>
      rw [h3] at hm
      simp only [Option.some.injEq] at hm
      obtain ⟨hlen, hall⟩ := splitClass_sound pyDigit 2 l d2 r h2
      exact sepPlusTail_shape seps d2 t x (Or.inr hlen) hall
        (sepTail_sound seps r t h3) hm
    | none =>
      rw [h3] at hm
      cases h1 : splitClass pyDigit 1 l with
      | some pr1 =>
        obtain ⟨d1, r1⟩ := pr1
        rw [h1] at hm
        simp only at hm
        cases h4 : sepTail seps r1 with
        | some t =>
          rw [h4] at hm
          simp only [Option.some.injEq] at hm
          obtain ⟨hlen, hall⟩ := splitClass_sound pyDigit 1 l d1 r1 h1
          exact sepPlusTail_shape seps d1 t x (Or.inl hlen) hall
            (sepTail_sound seps r1 t h4) hm
        | none => rw [h4] at hm; simp at hm
      | none => rw [h1] at hm; simp at hm
  | none =>
    rw [h2] at hm
    simp only at hm
    cases h1 : splitClass pyDigit 1 l with
    | some pr1 =>
      obtain ⟨d1, r1⟩ := pr1
      rw [h1] at hm
      simp only at hm
      cases h4 : sepTail seps r1 with
      | some t =>
        rw [h4] at hm
        simp only [Option.some.injEq] at hm
        obtain ⟨hlen, hall⟩ := splitClass_sound pyDigit 1 l d1 r1 h1
        exact sepPlusTail_shape seps d1 t x (Or.inl hlen) hall
          (sepTail_sound seps r1 t h4) hm
      | none => rw [h4] at hm; simp at hm
    | none => rw [h1] at hm; simp at hm

/-- Soundness of the anchored `\d{4}` matcher. -/
theorem serial4M_sound (l x : List Char) (hm : serial4M l = some x) :
    x.length = 4 ∧ ∀ c ∈ x, pyDigit c = true := by
  unfold serial4M at hm
  cases h : splitClass pyDigit 4 l with
  | none => rw [h] at hm; simp at hm
  | some pr =>
    obtain ⟨d, r⟩ := pr
    rw [h] at hm
    simp only [Option.some.injEq] at hm
    exact hm ▸ splitClass_sound pyDigit 4 l d r h

/-- Soundness of the anchored `\d{3}` matcher. -/
theorem serial3M_sound (l x : List Char) (hm : serial3M l = some x) :
    x.length = 3 ∧ ∀ c ∈ x, pyDigit c = true := by
  unfold serial3M at hm
  cases h : splitClass pyDigit 3 l with
  | none => rw [h] at hm; simp at hm
  | some pr =>
    obtain ⟨d, r⟩ := pr
    rw [h] at hm
    simp only [Option.some.injEq] at hm
    exact hm ▸ splitClass_sound pyDigit 3 l d r h

/-- A property of all anchored matches transfers to the `re.search` result. -/
theorem searchAt_sound {α : Type} (m : List Char → Option α) (P : α → Prop)
    (hall : ∀ l x, m l = some x → P x) :
    ∀ l x, searchAt m l = some x → P x := by
  intro l
  induction l with
  | nil => intro x h; exact hall [] x h
  | cons c cs ih =>
    intro x h
    unfold searchAt at h
    cases hc : m (c :: cs) with
    | some y =>
      rw [hc] at h
      simp only [Option.some.injEq] at h
      subst h
      exact hall (c :: cs) y hc
    | none =>
      rw [hc] at h
      exact ih x h

/-- Soundness of the shared full-pattern tail: the classification capture is
three class-`\d` characters and the serial capture inherits the serial
matcher's property. -/
theorem matchTailFull_sound (serialM : List Char → Option (List Char))
    (Q : List Char → Prop) (hs : ∀ l x, serialM l = some x → Q x)
    (l cls : List Char) (hch : Char) (ser : List Char)
    (hm : matchTailFull serialM l = some (cls, hch, ser)) :
    (cls.length = 3 ∧ ∀ c ∈ cls, pyDigit c = true) ∧ Q ser := by
  unfold matchTailFull at hm
  cases h3 : splitClass pyDigit 3 (skipSpaces l) with
  | none => rw [h3] at hm; simp at hm
  | some pr =>
    obtain ⟨cls1, r1⟩ := pr
    rw [h3] at hm
    simp only at hm
    cases hsk : skipSpaces r1 with
    | nil => rw [hsk] at hm; simp at hm
    | cons hh r2 =>
      rw [hsk] at hm
      by_cases hh2 : isHiraRange hh = true
      · simp only [hh2, if_true] at hm
        cases hse : serialM (skipSpaces r2) with
        | none => rw [hse] at hm; simp at hm
        | some s =>
          rw [hse] at hm
          simp only [Option.some.injEq, Prod.mk.injEq] at hm
          obtain ⟨rfl, -, rfl⟩ := hm
          exact ⟨splitClass_sound pyDigit 3 (skipSpaces l) _ r1 h3,
            hs (skipSpaces r2) _ hse⟩
      · simp [hh2] at hm

/-- Soundness of the greedy region backtracking loop (any region budget). -/
theorem tryRegionLens_sound (serialM : List Char → Option (List Char))
    (Q : List Char → Prop) (hs : ∀ l x, serialM l = some x → Q x) :
    ∀ (k : Nat) (l r c h n : List Char),
      tryRegionLens serialM l k = some (r, c, h, n) →
      (c.length = 3 ∧ ∀ x ∈ c, pyDigit x = true) ∧ Q n := by
  intro k
  induction k with
  | zero => intro l r c h n hm; simp [tryRegionLens] at hm
  | succ k ih =>
    intro l r c h n hm
    unfold tryRegionLens at hm
    cases h1 : splitClass regionChar (k + 1) l with
    | none =>
      rw [h1] at hm
      exact ih l r c h n hm
    | some pr =>
      obtain ⟨reg, rest⟩ := pr
      rw [h1] at hm
      simp only at hm
      cases h2 : matchTailFull serialM rest with
      | none =>
        rw [h2] at hm
        exact ih l r c h n hm
      | some tr =>
        obtain ⟨cls, hh, ser⟩ := tr
        rw [h2] at hm
        simp only [Option.some.injEq, Prod.mk.injEq] at hm
        obtain ⟨-, rfl, -, rfl⟩ := hm
        exact matchTailFull_sound serialM Q hs rest _ hh _ h2

/-- Soundness of a `re.search` over the full-plate pattern. -/
theorem searchFull_sound (maxR : Nat) (serialM : List Char → Option (List Char))
    (Q : List Char → Prop) (hs : ∀ l x, serialM l = some x → Q x)
    (l r c h n : List Char)
    (hm : searchAt (matchFullAt maxR serialM) l = some (r, c, h, n)) :
    (c.length = 3 ∧ ∀ x ∈ c, pyDigit x = true) ∧ Q n := by
  have := searchAt_sound (matchFullAt maxR serialM)
    (fun g => (g.2.1.length = 3 ∧ ∀ x ∈ g.2.1, pyDigit x = true) ∧ Q g.2.2.2)
    (fun l1 g hg => by
      obtain ⟨r1, c1, h1, n1⟩ := g
      exact tryRegionLens_sound serialM Q hs maxR l1 r1 c1 h1 n1 hg)
    l (r, c, h, n) hm
  exact this

/-- The serial shape has length four (one leading digit) or five (two). -/
theorem serialShapeB_length (seps x : List Char) (h : serialShapeB seps x = true) :
    x.length = 4 ∨ x.length = 5 := by
  cases x with
  | nil => simp [serialShapeB] at h
  | cons a l1 =>
    cases l1 with
    | nil => simp [serialShapeB] at h
    | cons b l2 =>
      cases l2 with
      | nil => simp [serialShapeB] at h
      | cons c l3 =>
        cases l3 with
        | nil => simp [serialShapeB] at h
        | cons d l4 =>
          cases l4 with
          | nil => left; rfl
          | cons e l5 =>
            cases l5 with
            | nil => right; rfl
            | cons f l6 => simp [serialShapeB] at h

/-- Three in-class digits give the classification shape. -/
theorem classShapeB_of (l : List Char) (hlen : l.length = 3)
    (hall : ∀ c ∈ l, pyDigit c = true) : classShapeB l = true := by
  obtain ⟨a, b, c, rfl⟩ := List.length_eq_three.mp hlen
  simp [classShapeB, hall a (by simp), hall b (by simp), hall c (by simp)]

/-- `app.py`'s Tier 3 numeric loop yields a `number` that is empty or
serial-shaped and a `classification` that is empty or three digits. -/
theorem appTier3Num_shape (clean : List Char) :
    ((appTier3Num clean).1 = [] ∨ serialShapeB appSeps (appTier3Num clean).1 = true) ∧
    classShapeB (appTier3Num clean).2 = true := by
  unfold appTier3Num
  cases h1 : searchAt (serialSepM appSeps) clean with
  | some num =>
    have hsh := searchAt_sound (serialSepM appSeps)
      (fun x => serialShapeB appSeps x = true)
      (fun l x h => serialSepM_sound appSeps l x h) clean num h1
    exact ⟨Or.inr hsh, by simp [classShapeB]⟩
  | none =>
    cases h2 : searchAt serial4M clean with
    | some num =>
      obtain ⟨hlen, hall⟩ := searchAt_sound serial4M
        (fun x => x.length = 4 ∧ ∀ c ∈ x, pyDigit c = true)
        (fun l x h => serial4M_sound l x h) clean num h2
      obtain ⟨a, b, c, d, rfl⟩ := listLengthFour num hlen
      refine ⟨Or.inr ?_, by simp [classShapeB]⟩
      simp [serialShapeB, List.take, List.drop, appSeps,
        hall a (by simp), hall b (by simp), hall c (by simp), hall d (by simp)]
    | none =>
      cases h3 : searchAt serial3M clean with
      | some num =>
        obtain ⟨hlen, hall⟩ := searchAt_sound serial3M
          (fun x => x.length = 3 ∧ ∀ c ∈ x, pyDigit c = true)
          (fun l x h => serial3M_sound l x h) clean num h3
        refine ⟨Or.inl rfl, ?_⟩
        have h33 : (num.length == 3) = true := by simp [hlen]
        simp only [h33, if_true]
        exact classShapeB_of num hlen hall
      | none => exact ⟨Or.inl rfl, by simp [classShapeB]⟩

/-- `ocr.py`'s Tier 3 length-based assignment always leaves a well-shaped
classification, given that the matched `num` came from one of the three
sub-patterns. -/
theorem ocrNumAssign_class (num : List Char)
    (hshape : serialShapeB ocrSeps num = true ∨
      (num.length = 4 ∧ ∀ c ∈ num, pyDigit c = true) ∨
      (num.length = 3 ∧ ∀ c ∈ num, pyDigit c = true)) :
    classShapeB (ocrNumAssign num).2 = true := by
  unfold ocrNumAssign
  by_cases hc1 : (num.length == 4 && !(num.contains '-')) = true
  · rw [if_pos hc1]
    simp [classShapeB]
  · rw [if_neg hc1]
    by_cases hc2 : (num.length == 3) = true
    · rw [if_pos hc2]
      have hlen3 : num.length = 3 := by simpa using hc2
      rcases hshape with h | h | h
      · rcases serialShapeB_length ocrSeps num h with h4 | h5
        · exact absurd (h4.symm.trans hlen3) (by decide)
        · exact absurd (h5.symm.trans hlen3) (by decide)
      · exact absurd (h.1.symm.trans hlen3) (by decide)
      · exact classShapeB_of num hlen3 h.2
    · rw [if_neg hc2]
      simp [classShapeB]

/-- `ocr.py` Tier 3 classification shape. -/
theorem ocrTier3Num_class (clean : List Char) :
    classShapeB (ocrTier3Num clean).2 = true := by
  unfold ocrTier3Num
  cases h1 : searchAt (serialSepM ocrSeps) clean with
  | some num =>
    exact ocrNumAssign_class num (Or.inl (searchAt_sound (serialSepM ocrSeps)
      (fun x => serialShapeB ocrSeps x = true)
      (fun l x h => serialSepM_sound ocrSeps l x h) clean num h1))
  | none =>
    cases h2 : searchAt serial4M clean with
    | some num =>
      exact ocrNumAssign_class num (Or.inr (Or.inl (searchAt_sound serial4M
        (fun x => x.length = 4 ∧ ∀ c ∈ x, pyDigit c = true)
        (fun l x h => serial4M_sound l x h) clean num h2)))
    | none =>
      cases h3 : searchAt serial3M clean with
      | some num =>
        exact ocrNumAssign_class num (Or.inr (Or.inr (searchAt_sound serial3M
          (fun x => x.length = 3 ∧ ∀ c ∈ x, pyDigit c = true)
          (fun l x h => serial3M_sound l x h) clean num h3)))
      | none => simp [classShapeB]

/-- `ocr.py` classification field shape over the whole tiered parse. -/
theorem ocrFields_class (clean : List Char) :
    classShapeB (ocrFields clean).2.1 = true := by
  unfold ocrFields
  cases h1 : searchAt (matchFullAt 4 (serialSepM ocrSeps)) clean with
  | some g =>
    obtain ⟨r, c, h, n⟩ := g
    obtain ⟨⟨hlen, hall⟩, -⟩ := searchFull_sound 4 (serialSepM ocrSeps)
      (fun x => serialShapeB ocrSeps x = true)
      (fun l x hx => serialSepM_sound ocrSeps l x hx) clean r c h n h1
    exact classShapeB_of c hlen hall
  | none =>
    cases h2 : searchAt (matchFullAt 4 serial4M) clean with
    | some g =>
      obtain ⟨r, c, h, n⟩ := g
      obtain ⟨⟨hlen, hall⟩, -⟩ := searchFull_sound 4 serial4M
        (fun x => x.length = 4 ∧ ∀ y ∈ x, pyDigit y = true)
        (fun l x hx => serial4M_sound l x hx) clean r c h n h2
      exact classShapeB_of c hlen hall
    | none => exact ocrTier3Num_class clean

/-- `app.py` classification and number field shapes over the whole tiered
parse. -/
theorem appFields_shape (clean : List Char) :
    classShapeB (appFields clean).2.1 = true ∧
    numShapeAppB (appFields clean).2.2.2 = true := by
  unfold appFields
  cases h1 : searchAt (matchFullAt 5 (serialSepM appSeps)) clean with
  | some g =>
    obtain ⟨r, c, h, n⟩ := g
    obtain ⟨⟨hlen, hall⟩, hser⟩ := searchFull_sound 5 (serialSepM appSeps)
      (fun x => serialShapeB appSeps x = true)
      (fun l x hx => serialSepM_sound appSeps l x hx) clean r c h n h1
    constructor
    · exact classShapeB_of c hlen hall
    · simp [numShapeAppB, hser]
  | none =>
    cases h2 : searchAt (matchFullAt 5 serial4M) clean with
    | some g =>
      obtain ⟨r, c, h, n⟩ := g
      obtain ⟨⟨hlen, hall⟩, hn4⟩ := searchFull_sound 5 serial4M
        (fun x => x.length = 4 ∧ ∀ y ∈ x, pyDigit y = true)
        (fun l x hx => serial4M_sound l x hx) clean r c h n h2
      obtain ⟨hnlen, hnall⟩ := hn4
      obtain ⟨a, b, cc, d, rfl⟩ := listLengthFour n hnlen
      constructor
      · exact classShapeB_of c hlen hall
      · simp [numShapeAppB, serialShapeB, List.take, List.drop, appSeps,
          hnall a (by simp), hnall b (by simp), hnall cc (by simp),
          hnall d (by simp)]
    | none =>
      have h3 := appTier3Num_shape clean
      refine ⟨h3.2, ?_⟩
      rcases h3.1 with hz | hsh
      · simp [numShapeAppB, hz]
      · simp [numShapeAppB, hsh]

/-- `simple_app.py` classification field shape. -/
theorem simpleFields_class (clean : List Char) :
    classShapeB (simpleFields clean).2.1 = true := by
  unfold simpleFields
  cases h : searchAt serial3M clean with
  | none => simp [classShapeB]
  | some num =>
    obtain ⟨hlen, hall⟩ := searchAt_sound serial3M
      (fun x => x.length = 3 ∧ ∀ c ∈ x, pyDigit c = true)
      (fun l x hx => serial3M_sound l x hx) clean num h
    exact classShapeB_of num hlen hall

/-- Claim C9 counterexample: `simple_app.py`'s number pattern
`(\d{1,2}[-−ー]?\d{2})` has an OPTIONAL separator, so on input `"123"` it
assigns `number = "123"` — neither `DD-DD` (two digits, hyphen, two digits)
nor empty, refuting the claimed invariant. -/
theorem claim9_counterexample :
    (simpleParse "123".toList).number = "123".toList ∧
    isDDdashDD "123".toList = false ∧
    "123".toList ≠ ([] : List Char) := by
  refine ⟨by decide, by decide, by decide⟩

/-- Claim C9 amended: in all three parsers `classification` is exactly three
`\d` characters or empty; in the tiered `app.py` parser `number` is empty or
1–2 digits, a separator from `[-−ー]`, and 2 digits (the Tier 2 / Tier 3
four-digit synthesis giving the hyphenated special case); `simple_app.py`'s
`number` may additionally omit the separator, as the counterexample shows. -/
theorem claim9_amended (t : List Char) :
    classShapeB (appParse t).classification = true ∧
    numShapeAppB (appParse t).number = true ∧
    classShapeB (ocrParse t).classification = true ∧
    classShapeB (simpleParse t).classification = true :=
  ⟨(appFields_shape (pyCleanSub t)).1, (appFields_shape (pyCleanSub t)).2,
   ocrFields_class (pyCleanSplit t), simpleFields_class (pyCleanSub t)⟩

end ParkApp
